import Mathlib

/-!
Verification of `drivers/video/msm/mdss/mdss_livedisplay.c` (LiveDisplay
RGB color-calibration module) as a shallow embedding in Lean 4.

The module keeps a per-panel context with red/green/blue gain values in
[0, 32768], a pending-update bitmask, and a single-threaded work queue.
User space writes "r g b" text to a sysfs node; the values are validated
and stored, an RGB update is marked pending and a deferred worker is
queued; the worker checks the panel power state and, when the panel is
interactive, programs a polynomial color-correction (PCC) command whose
diagonal coefficients are the stored values.

Machine integers are modelled as `Nat` (the C locals `r`, `g`, `b` in
`set_rgb` are `uint32_t`, so parsed `int` values are reduced modulo 2^32
before the range checks). Fallible calls return `Except Int` carrying
the negated errno. Pointers that may be absent are modelled as `Bool`
presence flags or `Option`. The hardware sink
`mdss_mdp_user_pcc_config` is external to the module and is passed in as
an arbitrary function `hw : mdp_pcc_cfg_data → Int`; the command a run
submits to it is additionally returned as an `Option mdp_pcc_cfg_data`
so that "no hardware call" is observable as `none`.
-/

namespace MdssLivedisplay

/-- Linux errno: no such device. -/
def ENODEV : Int := 19

/-- Linux errno: invalid argument. -/
def EINVAL : Int := 22

/-- Modelled from the spec: the single defined update-kind bit (RGB) of the
pending bitmask; `MODE_RGB` comes from `mdss_livedisplay.h`, which is not in
the excerpt. The spec describes `pending` as "a bitmask of update kinds
awaiting application (currently one kind: RGB)", so it is one bit. -/
def MODE_RGB : Nat := 1

/-- Modelled from the spec: operation flags of the MDP color-correction
command (`msm_mdp.h`, not in the excerpt); distinct single bits, "enable",
"read", "write", "disable". -/
def MDP_PP_OPS_ENABLE : Nat := 1

def MDP_PP_OPS_READ : Nat := 2

def MDP_PP_OPS_WRITE : Nat := 4

def MDP_PP_OPS_DISABLE : Nat := 8

/-- Modelled from the spec: base of the logical-display block enumeration
(`msm_mdp.h`, not in the excerpt); the command's target block is the panel
index plus this offset. -/
def MDP_LOGICAL_BLOCK_DISP_0 : Nat := 16

/-- `struct mdss_livedisplay_ctx`: the per-panel correction context.
`mfd_index` stands for `mlc->mfd->index`, the owning framebuffer's display
index (the only part of the `mfd` back-reference the module reads). -/
structure mdss_livedisplay_ctx where
  r : Nat
  g : Nat
  b : Nat
  updated : Nat
  mfd_index : Nat
deriving Repr, DecidableEq

/-- One channel row of `struct mdp_pcc_cfg_data` (`struct mdp_pcc_coeff`):
constant, linear r/g/b, and cross/product terms. -/
structure mdp_pcc_coeff where
  c : Nat
  r : Nat
  g : Nat
  b : Nat
  rg : Nat
  gb : Nat
  rb : Nat
  rgb : Nat
deriving Repr, DecidableEq

/-- `struct mdp_pcc_cfg_data`: the hardware color-correction command
(the `memset` zeroes every field; only the listed ones are then set). -/
structure mdp_pcc_cfg_data where
  block : Nat
  ops : Nat
  r : mdp_pcc_coeff
  g : mdp_pcc_coeff
  b : mdp_pcc_coeff
deriving Repr, DecidableEq

/-- `mdss_livedisplay_update_pcc`: translate the context's current RGB
values into a PCC command and submit it.  Returns `-ENODEV` for a null
context; otherwise zeroes the command, sets the target block to the panel
index plus the logical-display offset, picks `DISABLE` when all three
channels are 32768 and `ENABLE` otherwise, ORs in `WRITE`, sets exactly the
diagonal coefficients, and propagates the sink's result. The submitted
command is also returned (`none` when nothing was submitted). -/
def mdss_livedisplay_update_pcc (hw : mdp_pcc_cfg_data → Int) :
    Option mdss_livedisplay_ctx → Int × Option mdp_pcc_cfg_data
  | none => (-ENODEV, none)
  | some mlc =>
      let ops0 : Nat :=
        if mlc.r = 32768 ∧ mlc.g = 32768 ∧ mlc.b = 32768 then
          MDP_PP_OPS_DISABLE
        else
          MDP_PP_OPS_ENABLE
      let pcc_cfg : mdp_pcc_cfg_data :=
        ⟨mlc.mfd_index + MDP_LOGICAL_BLOCK_DISP_0,
         ops0 ||| MDP_PP_OPS_WRITE,
         ⟨0, mlc.r, 0, 0, 0, 0, 0, 0⟩,
         ⟨0, 0, mlc.g, 0, 0, 0, 0, 0⟩,
         ⟨0, 0, 0, mlc.b, 0, 0, 0, 0⟩⟩
      (hw pcc_cfg, some pcc_cfg)

/-- `mdss_livedisplay_worker`: the deferred update worker.
`ctrl_resolved` models `get_ctrl(mlc->mfd) != NULL` (the `container_of`
result and `&ctrl_pdata->panel_data.panel_info` are never null);
`power_interactive` models
`mdss_panel_is_power_on_interactive(pinfo->panel_power_state)`, a predicate
defined outside the excerpt.  When either early guard fails the run returns
with the context untouched and no command submitted; otherwise, under the
lock, it re-applies a pending RGB update via `update_pcc` and
unconditionally clears `updated` before unlocking. -/
def mdss_livedisplay_worker (hw : mdp_pcc_cfg_data → Int)
    (ctrl_resolved power_interactive : Bool)
    (mlc : mdss_livedisplay_ctx) :
    mdss_livedisplay_ctx × Option mdp_pcc_cfg_data :=
  if ctrl_resolved = false then (mlc, none)
  else if power_interactive = false then (mlc, none)
  else
    let cmd : Option mdp_pcc_cfg_data :=
      if mlc.updated &&& MODE_RGB ≠ 0 then
        (mdss_livedisplay_update_pcc hw (some mlc)).2
      else
        none
    (⟨mlc.r, mlc.g, mlc.b, 0, mlc.mfd_index⟩, cmd)

/-! ### Textual configuration interface

`set_rgb` receives a byte buffer and its length from sysfs; the buffer is
modelled as a `List Char` of ASCII bytes and `count` as its length.  The C
code parses it with `sscanf(buf, "%d %d %d", &r, &g, &b)` into `uint32_t`
locals initialized to 0; `get_rgb` formats with
`scnprintf(buf, PAGE_SIZE, "%d %d %d\n", ...)`.  `sscanf`/`scnprintf`
themselves live in the kernel's `lib/`, outside the excerpt, so the parse
and format steps are modelled from the spec below. -/

/-- ASCII decimal digit test (`isdigit`). -/
def isDigitC (c : Char) : Bool := 48 ≤ c.toNat && c.toNat ≤ 57

/-- Whitespace skipped by a `%d` conversion (`isspace`). -/
def isSpaceC (c : Char) : Bool :=
  c = ' ' || c = '\t' || c = '\n' || c = '\r'

/-- Drop leading whitespace. -/
def skipSpaces : List Char → List Char
  | [] => []
  | c :: cs => if isSpaceC c then skipSpaces cs else c :: cs

/-- Consume a maximal run of decimal digits, accumulating their value onto
`acc` most-significant-first; returns the value and the rest. -/
def takeDigits : List Char → Nat → Nat × List Char
  | [], acc => (acc, [])
  | c :: cs, acc =>
      if isDigitC c then takeDigits cs (acc * 10 + (c.toNat - 48))
      else (acc, c :: cs)

/-- Modelled from the spec: one `%d` conversion of the kernel's `vsscanf`
("parses up to three whitespace-separated integers"): skip whitespace,
accept an optional minus sign followed by at least one digit, and return
the signed value and the unconsumed rest; `none` on a match failure. -/
def scanInt (cs : List Char) : Option (Int × List Char) :=
  match skipSpaces cs with
  | [] => none
  | c :: rest =>
      if c = '-' then
        match rest with
        | [] => none
        | d :: rest2 =>
            if isDigitC d then
              let p := takeDigits rest2 (d.toNat - 48)
              some (-(p.1 : Int), p.2)
            else none
      else if isDigitC c then
        let p := takeDigits rest (c.toNat - 48)
        some ((p.1 : Int), p.2)
      else none

/-- Whether a buffer starts with a decimal digit (where a `%d` conversion
with no sign would keep consuming). -/
def headDigit : List Char → Bool
  | [] => false
  | c :: _ => isDigitC c

/-- Modelled from the spec: `sscanf(buf, "%d %d %d", ...)` — the list of
successfully converted values, in order, stopping at the first match
failure (at most three). -/
def sscanf3 (buf : List Char) : List Int :=
  match scanInt buf with
  | none => []
  | some (v1, r1) =>
      match scanInt r1 with
      | none => [v1]
      | some (v2, r2) =>
          match scanInt r2 with
          | none => [v1, v2]
          | some (v3, _) => [v1, v2, v3]

/-- Storing a parsed C `int` into a `uint32_t` local: reduce modulo 2^32. -/
def toU32 (v : Int) : Nat := (v % (2 ^ 32 : Nat)).toNat

/-- The `uint32_t` locals `r, g, b` after `sscanf`: initialized to 0,
overwritten in order by however many values were converted. -/
def applyParsed : List Int → Nat × Nat × Nat
  | [] => (0, 0, 0)
  | [a] => (toU32 a, 0, 0)
  | [a, b] => (toU32 a, toU32 b, 0)
  | a :: b :: c :: _ => (toU32 a, toU32 b, toU32 c)

/-- Decimal rendering of a `Nat`, most-significant digit first (the `%d`
directive of `scnprintf`, modelled from the spec for the values in range). -/
def renderNat (n : Nat) : List Char :=
  if h : n < 10 then [Char.ofNat (48 + n)]
  else renderNat (n / 10) ++ [Char.ofNat (48 + n % 10)]
  decreasing_by exact Nat.div_lt_self (by omega) (by omega)

/-- The text `"r g b"` a user writes for a triple. -/
def renderTriple (r g b : Nat) : List Char :=
  renderNat r ++ (' ' :: (renderNat g ++ (' ' :: renderNat b)))

/-- `mdss_livedisplay_get_rgb`: `-ENODEV` when the framebuffer handle is
absent; otherwise format the three current values unlocked as
`"%d %d %d\n"`. -/
def mdss_livedisplay_get_rgb (mfd_present : Bool)
    (mlc : mdss_livedisplay_ctx) : Except Int (List Char) :=
  if mfd_present = false then Except.error (-ENODEV)
  else Except.ok
    (renderNat mlc.r
      ++ (' ' :: (renderNat mlc.g ++ (' ' :: (renderNat mlc.b ++ ['\n'])))))

/-- `mdss_livedisplay_update`: OR the requested kinds into the pending mask
under the lock, then queue the worker.  The returned `Bool` records that
`queue_work` was called. -/
def mdss_livedisplay_update (mlc : mdss_livedisplay_ctx) (upd : Nat) :
    mdss_livedisplay_ctx × Bool :=
  (⟨mlc.r, mlc.g, mlc.b, mlc.updated ||| upd, mlc.mfd_index⟩, true)

/-- `mdss_livedisplay_set_rgb`: the sysfs store callback.  `-ENODEV` when
the framebuffer handle is absent; `-EINVAL` when more than 19 bytes are
supplied or any parsed value (as `uint32_t`) exceeds 32768 (the C checks
`r < 0 || r > 32768` on an unsigned local, so only the upper bound can
fire); otherwise the three locals are stored under the lock,
`mdss_livedisplay_update(mlc, MODE_RGB)` marks the RGB update pending and
queues the worker, and the byte count is returned.  The result carries the
updated context, the returned count, and whether the worker was queued. -/
def mdss_livedisplay_set_rgb (mfd_present : Bool)
    (mlc : mdss_livedisplay_ctx) (buf : List Char) :
    Except Int (mdss_livedisplay_ctx × Nat × Bool) :=
  let count := buf.length
  if mfd_present = false then Except.error (-ENODEV)
  else if count > 19 then Except.error (-EINVAL)
  else
    let p := applyParsed (sscanf3 buf)
    if p.1 > 32768 then Except.error (-EINVAL)
    else if p.2.1 > 32768 then Except.error (-EINVAL)
    else if p.2.2 > 32768 then Except.error (-EINVAL)
    else
      let mlc1 : mdss_livedisplay_ctx :=
        ⟨p.1, p.2.1, p.2.2, mlc.updated, mlc.mfd_index⟩
      let q := mdss_livedisplay_update mlc1 MODE_RGB
      Except.ok (q.1, count, q.2)

/-- `mdss_livedisplay_parse_dt`: allocate and initialize a context and hang
it on the panel info.  Returns `-ENODEV` when `pinfo` is null.  The
`kzalloc` result is NOT checked: when allocation fails the function
dereferences the null pointer (`mlc->r = ...`), modelled as `none`
(a crash, not an error return).  On success the context is
(32768, 32768, 32768) with an empty pending mask. -/
def mdss_livedisplay_parse_dt (alloc_ok pinfo_present : Bool) :
    Option (Except Int mdss_livedisplay_ctx) :=
  if pinfo_present = false then some (Except.error (-ENODEV))
  else if alloc_ok = false then none
  else some (Except.ok ⟨32768, 32768, 32768, 0, 0⟩)

/-! ### Trace model for scheduling and coalescing

`queue_work` on the context's single-threaded workqueue and the resulting
worker executions are kernel workqueue machinery outside the excerpt.
Modelled from the spec: "Scheduling is idempotent: if a run is already
queued but not yet started, the additional request is still honored because
the worker re-reads `pending` under the lock when it runs", and one
single-threaded queue runs at most the one queued instance.  A system state
is the context, whether a worker run is queued, and the log of commands
submitted to the hardware sink. -/

structure LDSys where
  mlc : mdss_livedisplay_ctx
  work_queued : Bool
  hw_log : List mdp_pcc_cfg_data
deriving Repr, DecidableEq

/-- A `set_rgb` call on the system: on success the context is replaced and
the worker becomes queued (idempotently); on rejection nothing changes.
No hardware command is ever submitted here. -/
def sysSetRgb (s : LDSys) (buf : List Char) : LDSys :=
  match mdss_livedisplay_set_rgb true s.mlc buf with
  | Except.error _ => s
  | Except.ok (mlc1, _, q) => ⟨mlc1, s.work_queued || q, s.hw_log⟩

/-- The queued worker executing (with the control handle resolved and the
panel interactive): consumes the queued run, updates the context, and
appends whatever command the run submitted to the hardware log.  With no
run queued, nothing happens. -/
def sysWorker (hw : mdp_pcc_cfg_data → Int) (s : LDSys) : LDSys :=
  if s.work_queued then
    let p := mdss_livedisplay_worker hw true true s.mlc
    ⟨p.1, false, s.hw_log ++ p.2.toList⟩
  else s

/-- A sequence of `set_rgb` calls, one per triple, each written as the
text `"r g b"`. -/
def runSets (s : LDSys) : List (Nat × Nat × Nat) → LDSys
  | [] => s
  | t :: ts => runSets (sysSetRgb s (renderTriple t.1 t.2.1 t.2.2)) ts

/-- Context states reachable from initialization
(`mdss_livedisplay_parse_dt` success, then `create_sysfs` installing an
arbitrary panel index) by any interleaving of `set_rgb` calls,
`mdss_livedisplay_update` requests and worker runs. -/
inductive Reachable : mdss_livedisplay_ctx → Prop where
  | init (idx : Nat) : Reachable ⟨32768, 32768, 32768, 0, idx⟩
  | set_ok (m m' : mdss_livedisplay_ctx) (buf : List Char) (n : Nat)
      (q : Bool) (hm : Reachable m)
      (h : mdss_livedisplay_set_rgb true m buf = Except.ok (m', n, q)) :
      Reachable m'
  | upd (m : mdss_livedisplay_ctx) (mask : Nat) (hm : Reachable m) :
      Reachable (mdss_livedisplay_update m mask).1
  | work (m : mdss_livedisplay_ctx) (hw : mdp_pcc_cfg_data → Int)
      (c p : Bool) (hm : Reachable m) :
      Reachable (mdss_livedisplay_worker hw c p m).1

/-! ### Facts about the modelled renderer and parser -/

theorem digit_char_toNat (m : Nat) (h : m < 10) :
    (Char.ofNat (48 + m)).toNat = 48 + m := by
  interval_cases m <;> decide

theorem digit_char_isDigit (m : Nat) (h : m < 10) :
    isDigitC (Char.ofNat (48 + m)) = true := by
  interval_cases m <;> decide

theorem digit_char_not_space (m : Nat) (h : m < 10) :
    isSpaceC (Char.ofNat (48 + m)) = false := by
  interval_cases m <;> decide

theorem digit_char_ne_minus (m : Nat) (h : m < 10) :
    Char.ofNat (48 + m) ≠ '-' := by
  interval_cases m <;> decide

theorem renderNat_eq (n : Nat) :
    renderNat n = if n < 10 then [Char.ofNat (48 + n)]
      else renderNat (n / 10) ++ [Char.ofNat (48 + n % 10)] := by
  rw [renderNat]
  simp

theorem renderNat_small (n : Nat) (h : n < 10) :
    renderNat n = [Char.ofNat (48 + n)] := by
  rw [renderNat_eq]
  simp [h]

theorem renderNat_large (n : Nat) (h : ¬ n < 10) :
    renderNat n = renderNat (n / 10) ++ [Char.ofNat (48 + n % 10)] := by
  rw [renderNat_eq]
  simp [h]

theorem renderNat_ne_nil (n : Nat) : renderNat n ≠ [] := by
  by_cases h : n < 10
  · rw [renderNat_small n h]
    simp
  · rw [renderNat_large n h]
    simp

theorem renderNat_mem (n : Nat) :
    ∀ c ∈ renderNat n, ∃ m, m < 10 ∧ c = Char.ofNat (48 + m) := by
  induction n using Nat.strong_induction_on with
  | _ n ih =>
    by_cases h : n < 10
    · rw [renderNat_small n h]
      intro c hc
      simp at hc
      exact ⟨n, h, hc⟩
    · rw [renderNat_large n h]
      intro c hc
      rcases List.mem_append.mp hc with hc1 | hc2
      · exact ih (n / 10) (Nat.div_lt_self (by omega) (by omega)) c hc1
      · simp at hc2
        exact ⟨n % 10, Nat.mod_lt _ (by omega), hc2⟩

theorem takeDigits_append (l1 l2 : List Char) (acc : Nat)
    (h : ∀ c ∈ l1, isDigitC c = true) :
    takeDigits (l1 ++ l2) acc
      = takeDigits l2
          (List.foldl (fun a c => a * 10 + (c.toNat - 48)) acc l1) := by
  induction l1 generalizing acc with
  | nil => simp
  | cons c cs ih =>
      have hc : isDigitC c = true := h c (by simp)
      simp only [List.cons_append, takeDigits, hc, if_true, List.foldl]
      exact ih _ (fun d hd => h d (by simp [hd]))

theorem takeDigits_stop (l : List Char) (acc : Nat)
    (h : headDigit l = false) : takeDigits l acc = (acc, l) := by
  cases l with
  | nil => rfl
  | cons c cs =>
      simp only [headDigit] at h
      simp [takeDigits, h]

theorem foldl_renderNat (n : Nat) :
    ∀ acc, List.foldl (fun a c => a * 10 + (c.toNat - 48)) acc (renderNat n)
      = acc * 10 ^ (renderNat n).length + n := by
  induction n using Nat.strong_induction_on with
  | _ n ih =>
    intro acc
    by_cases h : n < 10
    · rw [renderNat_small n h]
      simp [digit_char_toNat n h]
    · rw [renderNat_large n h]
      rw [List.foldl_append]
      rw [ih (n / 10) (Nat.div_lt_self (by omega) (by omega)) acc]
      simp only [List.foldl, List.length_append, List.length_cons,
        List.length_nil, digit_char_toNat (n % 10) (Nat.mod_lt _ (by omega))]
      have key : (acc * 10 ^ (renderNat (n / 10)).length + n / 10) * 10
            + (48 + n % 10 - 48)
          = acc * 10 ^ ((renderNat (n / 10)).length + (0 + 1))
            + (n / 10 * 10 + n % 10) := by
        rw [pow_add]
        ring_nf
        omega
      rw [key]
      have hdm : n / 10 * 10 + n % 10 = n := by omega
      rw [hdm]

theorem skipSpaces_not_space (c : Char) (l : List Char)
    (h : isSpaceC c = false) : skipSpaces (c :: l) = c :: l := by
  simp [skipSpaces, h]

theorem scanInt_renderNat (n : Nat) (rest : List Char)
    (h : headDigit rest = false) :
    scanInt (renderNat n ++ rest) = some ((n : Int), rest) := by
  obtain ⟨c0, t, ht⟩ : ∃ c0 t, renderNat n = c0 :: t := by
    cases hr : renderNat n with
    | nil => exact absurd hr (renderNat_ne_nil n)
    | cons a l => exact ⟨a, l, rfl⟩
  obtain ⟨m, hm, hcm⟩ := renderNat_mem n c0 (by rw [ht]; simp)
  have hdig : isDigitC c0 = true := by
    rw [hcm]; exact digit_char_isDigit m hm
  have hnspace : isSpaceC c0 = false := by
    rw [hcm]; exact digit_char_not_space m hm
  have hnminus : ¬ c0 = '-' := by
    rw [hcm]; exact digit_char_ne_minus m hm
  have hall : ∀ c ∈ t, isDigitC c = true := by
    intro c hc
    obtain ⟨m2, hm2, hcm2⟩ := renderNat_mem n c (by rw [ht]; simp [hc])
    rw [hcm2]
    exact digit_char_isDigit m2 hm2
  have hfold : List.foldl (fun a c => a * 10 + (c.toNat - 48))
      (c0.toNat - 48) t = n := by
    have h0 := foldl_renderNat n 0
    rw [ht] at h0
    simpa using h0
  rw [ht, List.cons_append]
  simp only [scanInt, skipSpaces_not_space c0 _ hnspace, hnminus, if_false,
    hdig, if_true]
  rw [takeDigits_append t rest (c0.toNat - 48) hall, takeDigits_stop rest _ h,
    hfold]

theorem scanInt_cons_space (l : List Char) :
    scanInt (' ' :: l) = scanInt l := by
  simp only [scanInt]
  rw [show skipSpaces (' ' :: l) = skipSpaces l from by
    simp [skipSpaces, isSpaceC]]

theorem sscanf3_renderTriple (r g b : Nat) :
    sscanf3 (renderTriple r g b) = [(r : Int), (g : Int), (b : Int)] := by
  have hb0 : scanInt (renderNat b) = some ((b : Int), []) := by
    have := scanInt_renderNat b [] (by rfl)
    rwa [List.append_nil] at this
  have h1 : scanInt (renderNat r
        ++ (' ' :: (renderNat g ++ (' ' :: renderNat b))))
      = some ((r : Int), ' ' :: (renderNat g ++ (' ' :: renderNat b))) :=
    scanInt_renderNat r (' ' :: (renderNat g ++ (' ' :: renderNat b)))
      (by simp [headDigit, isDigitC])
  have h2 : scanInt (renderNat g ++ (' ' :: renderNat b))
      = some ((g : Int), ' ' :: renderNat b) :=
    scanInt_renderNat g (' ' :: renderNat b)
      (by simp [headDigit, isDigitC])
  simp only [sscanf3, renderTriple, h1, scanInt_cons_space, h2, hb0]

theorem toU32_coe (n : Nat) (h : n < 2 ^ 32) : toU32 ((n : Int)) = n := by
  unfold toU32
  rw [Int.emod_eq_of_lt (by positivity) (by exact_mod_cast h)]
  simp

theorem renderNat_length_le :
    ∀ k n, 1 ≤ k → n < 10 ^ k → (renderNat n).length ≤ k := by
  intro k
  induction k with
  | zero => omega
  | succ k ih =>
      intro n _ hn
      by_cases h : n < 10
      · rw [renderNat_small n h]
        simp
      · rw [renderNat_large n h]
        have hk1 : 1 ≤ k := by
          by_contra hk0
          have hk : k = 0 := by omega
          rw [hk] at hn
          norm_num at hn
          omega
        have hdiv : n / 10 < 10 ^ k := by
          apply Nat.div_lt_of_lt_mul
          have : (10 : Nat) ^ (k + 1) = 10 * 10 ^ k := by ring
          omega
        have := ih (n / 10) hk1 hdiv
        simp [List.length_append]
        omega

theorem renderTriple_length_le (r g b : Nat)
    (hr : r ≤ 32768) (hg : g ≤ 32768) (hb : b ≤ 32768) :
    (renderTriple r g b).length ≤ 17 := by
  have hp : (10 : Nat) ^ 5 = 100000 := by norm_num
  have h1 := renderNat_length_le 5 r (by omega) (by omega)
  have h2 := renderNat_length_le 5 g (by omega) (by omega)
  have h3 := renderNat_length_le 5 b (by omega) (by omega)
  simp [renderTriple, List.length_append]
  omega

/-! ### Behaviour of the embedded operations -/

theorem set_rgb_renderTriple (m : mdss_livedisplay_ctx) (r g b : Nat)
    (hr : r ≤ 32768) (hg : g ≤ 32768) (hb : b ≤ 32768) :
    mdss_livedisplay_set_rgb true m (renderTriple r g b)
      = Except.ok (⟨r, g, b, m.updated ||| MODE_RGB, m.mfd_index⟩,
          (renderTriple r g b).length, true) := by
  have hlen : ¬ (renderTriple r g b).length > 19 := by
    have := renderTriple_length_le r g b hr hg hb
    omega
  have hparse := sscanf3_renderTriple r g b
  have h32 : (2 : Nat) ^ 32 = 4294967296 := by norm_num
  simp only [mdss_livedisplay_set_rgb, mdss_livedisplay_update, hlen,
    if_false, hparse, applyParsed, toU32_coe r (by omega),
    toU32_coe g (by omega), toU32_coe b (by omega)]
  have hr2 : ¬ r > 32768 := by omega
  have hg2 : ¬ g > 32768 := by omega
  have hb2 : ¬ b > 32768 := by omega
  simp [hr2, hg2, hb2]

theorem set_rgb_ok_bounds (m m' : mdss_livedisplay_ctx) (buf : List Char)
    (n : Nat) (q : Bool)
    (h : mdss_livedisplay_set_rgb true m buf = Except.ok (m', n, q)) :
    m'.r ≤ 32768 ∧ m'.g ≤ 32768 ∧ m'.b ≤ 32768 := by
  simp only [mdss_livedisplay_set_rgb, mdss_livedisplay_update,
    Bool.true_eq_false, if_false] at h
  split_ifs at h with hl hr1 hg1 hb1
  all_goals simp at h
  obtain ⟨hm, -, -⟩ := h
  subst hm
  refine ⟨?_, ?_, ?_⟩ <;> dsimp only <;> omega

theorem worker_fst_rgb (hw : mdp_pcc_cfg_data → Int) (c p : Bool)
    (m : mdss_livedisplay_ctx) :
    ((mdss_livedisplay_worker hw c p m).1).r = m.r
    ∧ ((mdss_livedisplay_worker hw c p m).1).g = m.g
    ∧ ((mdss_livedisplay_worker hw c p m).1).b = m.b := by
  simp only [mdss_livedisplay_worker]
  split_ifs <;> simp

theorem or_rgb_pending (u : Nat) : (u ||| MODE_RGB) &&& MODE_RGB ≠ 0 := by
  simp [ MODE_RGB, Nat.and_one_is_mod, Nat.or_mod_two_eq_one]

theorem or_rgb_idem (u : Nat) :
    (u ||| MODE_RGB) ||| MODE_RGB = u ||| MODE_RGB := by
  rw [Nat.or_assoc]
  simp [ MODE_RGB]

theorem runSets_spec (ts : List (Nat × Nat × Nat)) :
    ∀ (s : LDSys) (hne : ts ≠ [])
      (hv : ∀ t ∈ ts, t.1 ≤ 32768 ∧ t.2.1 ≤ 32768 ∧ t.2.2 ≤ 32768),
      runSets s ts
        = ⟨⟨(ts.getLast hne).1, (ts.getLast hne).2.1, (ts.getLast hne).2.2,
            s.mlc.updated ||| MODE_RGB, s.mlc.mfd_index⟩,
           true, s.hw_log⟩ := by
  induction ts with
  | nil => intro s hne _; exact absurd rfl hne
  | cons t ts ih =>
      intro s hne hv
      obtain ⟨ht1, ht2, ht3⟩ := hv t (by simp)
      have hstep : sysSetRgb s (renderTriple t.1 t.2.1 t.2.2)
          = ⟨⟨t.1, t.2.1, t.2.2, s.mlc.updated ||| MODE_RGB,
              s.mlc.mfd_index⟩, true, s.hw_log⟩ := by
        simp [sysSetRgb, set_rgb_renderTriple s.mlc t.1 t.2.1 t.2.2 ht1 ht2 ht3]
      rcases Decidable.em (ts = []) with hnil | hcons
      · subst hnil
        show sysSetRgb s (renderTriple t.1 t.2.1 t.2.2) = _
        rw [hstep]
        simp
      · show runSets (sysSetRgb s (renderTriple t.1 t.2.1 t.2.2)) ts = _
        rw [hstep, ih _ hcons (fun u hu => hv u (by simp [hu]))]
        simp [List.getLast_cons hcons, or_rgb_idem]

/-! ### Claims -/

/-- C3: for every worker run in which the panel's power state is not
interactive/powered-on, the run issues no hardware color-correction command
and leaves the context — in particular the pending-update bitmask — exactly
as it was, so the update remains pending. -/
theorem c3_theorem (hw : mdp_pcc_cfg_data → Int) (c : Bool)
    (m : mdss_livedisplay_ctx) :
    mdss_livedisplay_worker hw c false m = (m, none) := by
  cases c <;> rfl

/-- C4: every worker run that passes the power check and reaches the
locked-apply phase resets the pending bitmask to zero before the lock is
released, whatever result the hardware programming call returns. -/
theorem c4_theorem (hw : mdp_pcc_cfg_data → Int)
    (m : mdss_livedisplay_ctx) :
    ((mdss_livedisplay_worker hw true true m).1).updated = 0 := rfl

/-- C5: the hardware programmer sets the command's operation flags to
"disable" iff red, green and blue all equal 32768 and to "enable"
otherwise, and in both cases ORs in the "write" flag. -/
theorem c5_theorem (hw : mdp_pcc_cfg_data → Int)
    (m : mdss_livedisplay_ctx) :
    ∃ cfg, (mdss_livedisplay_update_pcc hw (some m)).2 = some cfg
      ∧ ((m.r = 32768 ∧ m.g = 32768 ∧ m.b = 32768) →
          cfg.ops = (MDP_PP_OPS_DISABLE ||| MDP_PP_OPS_WRITE))
      ∧ (¬ (m.r = 32768 ∧ m.g = 32768 ∧ m.b = 32768) →
          cfg.ops = (MDP_PP_OPS_ENABLE ||| MDP_PP_OPS_WRITE)) := by
  refine ⟨_, rfl, ?_, ?_⟩ <;> intro h
  · simp [mdss_livedisplay_update_pcc, h]
  · simp [mdss_livedisplay_update_pcc, h]

/-- C6: for every non-null context the hardware programmer builds a command
whose target block is the panel's display index plus the logical-display
block offset, whose diagonal coefficients are the stored values with every
cross-channel term zero, and whose result is the code returned by the
display pipeline's color-correction entry point; a null context yields a
no-such-device error. -/
theorem c6_theorem (hw : mdp_pcc_cfg_data → Int)
    (m : mdss_livedisplay_ctx) :
    (∃ cfg, mdss_livedisplay_update_pcc hw (some m) = (hw cfg, some cfg)
      ∧ cfg.block = m.mfd_index + MDP_LOGICAL_BLOCK_DISP_0
      ∧ cfg.r = ⟨0, m.r, 0, 0, 0, 0, 0, 0⟩
      ∧ cfg.g = ⟨0, 0, m.g, 0, 0, 0, 0, 0⟩
      ∧ cfg.b = ⟨0, 0, 0, m.b, 0, 0, 0, 0⟩)
    ∧ mdss_livedisplay_update_pcc hw none = (-ENODEV, none) :=
  ⟨⟨_, rfl, rfl, rfl, rfl, rfl⟩, rfl⟩

/-- C7 counterexample: with the panel-info handle absent, initialization
returns the no-such-device error `-ENODEV`, not the invalid-argument error
`-EINVAL` the claim names; and when allocation fails it does not return an
allocation error at all — the unchecked `kzalloc` result is dereferenced
(modelled as `none`). -/
theorem c7_counterexample :
    mdss_livedisplay_parse_dt true false = some (Except.error (-ENODEV))
    ∧ ¬ mdss_livedisplay_parse_dt true false = some (Except.error (-EINVAL))
    ∧ mdss_livedisplay_parse_dt false true = none := by
  refine ⟨rfl, ?_, rfl⟩
  intro h
  simp [mdss_livedisplay_parse_dt, ENODEV, EINVAL] at h

/-- C7 (amended): initialization sets all three channel values to 32768 and
the pending mask to empty and returns success when given a panel-info
handle; it fails with a no-such-device error when the panel-info handle is
absent; a failed allocation is not detected — the null allocation is
dereferenced instead of an allocation error being returned. -/
theorem c7_theorem :
    mdss_livedisplay_parse_dt true true
        = some (Except.ok ⟨32768, 32768, 32768, 0, 0⟩)
    ∧ (∀ a : Bool, mdss_livedisplay_parse_dt a false
        = some (Except.error (-ENODEV)))
    ∧ mdss_livedisplay_parse_dt false true = none := by
  refine ⟨rfl, ?_, rfl⟩
  intro a
  rfl

/-- C1 counterexample: the malformed (entirely non-numeric) 3-byte input
`"foo"` is NOT rejected: `sscanf` converts nothing, the zero-initialized
locals pass validation, the stored triple changes from (32768, 32768,
32768) to (0, 0, 0), an RGB update is marked pending, the worker is
queued, and the byte count is returned. -/
theorem c1_counterexample :
    mdss_livedisplay_set_rgb true ⟨32768, 32768, 32768, 0, 0⟩
        ['f', 'o', 'o']
      = Except.ok (⟨0, 0, 0, 1, 0⟩, 3, true) := rfl

/-- C1 (amended): every call to `set_rgb` whose input exceeds 19 bytes, or
whose parsed components (as `uint32_t`, unparsed channels defaulting to 0)
include one greater than 32768, returns the invalid-argument error before
any store or scheduling; malformed input from which no out-of-range
component is parsed is, however, accepted with unparsed channels stored
as 0. -/
theorem c1_theorem (m : mdss_livedisplay_ctx) (buf : List Char)
    (h : buf.length > 19
      ∨ (applyParsed (sscanf3 buf)).1 > 32768
      ∨ (applyParsed (sscanf3 buf)).2.1 > 32768
      ∨ (applyParsed (sscanf3 buf)).2.2 > 32768) :
    mdss_livedisplay_set_rgb true m buf = Except.error (-EINVAL) := by
  simp only [mdss_livedisplay_set_rgb, mdss_livedisplay_update,
    Bool.true_eq_false, if_false]
  split_ifs with hl h1 h2 h3
  · rfl
  · rfl
  · rfl
  · rfl
  · exfalso
    rcases h with h | h | h | h
    exacts [hl h, h1 h, h2 h, h3 h]

/-- C1 witness: the spec's own scenario `"40000 0 0"` (9 bytes, first
component 40000 > 32768) is rejected with the invalid-argument error. -/
theorem c1_witness :
    ((applyParsed (sscanf3
        ['4', '0', '0', '0', '0', ' ', '0', ' ', '0'])).1 > 32768)
    ∧ mdss_livedisplay_set_rgb true ⟨25828, 17347, 8192, 0, 0⟩
        ['4', '0', '0', '0', '0', ' ', '0', ' ', '0']
      = Except.error (-EINVAL) :=
  ⟨by decide, c1_theorem ⟨25828, 17347, 8192, 0, 0⟩ _ (Or.inr (Or.inl (by decide)))⟩

/-- C2: for every triple in `[0, 32768]^3`, writing the text `"r g b"`
succeeds, returns the number of bytes consumed, queues an update, stores
exactly that triple, and a subsequent read formats exactly that triple as
three space-separated decimal integers (with a trailing newline). -/
theorem c2_theorem (r g b : Nat)
    (hr : r ≤ 32768) (hg : g ≤ 32768) (hb : b ≤ 32768)
    (m : mdss_livedisplay_ctx) :
    ∃ m1, mdss_livedisplay_set_rgb true m (renderTriple r g b)
        = Except.ok (m1, (renderTriple r g b).length, true)
      ∧ m1.r = r ∧ m1.g = g ∧ m1.b = b
      ∧ mdss_livedisplay_get_rgb true m1
        = Except.ok (renderTriple r g b ++ ['\n']) := by
  refine ⟨_, set_rgb_renderTriple m r g b hr hg hb, rfl, rfl, rfl, ?_⟩
  simp [mdss_livedisplay_get_rgb, renderTriple]

/-- C2 witness: the spec's 3500K scenario — writing `"25828 17347 8192"`
to the default context stores (25828, 17347, 8192) and reading returns
exactly that text. -/
theorem c2_witness :
    (25828 ≤ 32768 ∧ 17347 ≤ 32768 ∧ 8192 ≤ 32768)
    ∧ ∃ m1, mdss_livedisplay_set_rgb true ⟨32768, 32768, 32768, 0, 0⟩
          (renderTriple 25828 17347 8192)
        = Except.ok (m1, (renderTriple 25828 17347 8192).length, true)
      ∧ m1.r = 25828 ∧ m1.g = 17347 ∧ m1.b = 8192
      ∧ mdss_livedisplay_get_rgb true m1
        = Except.ok (renderTriple 25828 17347 8192 ++ ['\n']) :=
  ⟨⟨by omega, by omega, by omega⟩,
    c2_theorem 25828 17347 8192 (by omega) (by omega) (by omega)
      ⟨32768, 32768, 32768, 0, 0⟩⟩

/-- C9 counterexample: `"40000"` is at most 19 bytes and parses fewer than
three integers, yet the call does not succeed — the one parsed value is
out of range, so it is rejected with the invalid-argument error and
nothing is stored or scheduled. -/
theorem c9_counterexample :
    (['4', '0', '0', '0', '0'] : List Char).length ≤ 19
    ∧ (sscanf3 ['4', '0', '0', '0', '0']).length < 3
    ∧ mdss_livedisplay_set_rgb true ⟨32768, 32768, 32768, 0, 0⟩
        ['4', '0', '0', '0', '0']
      = Except.error (-EINVAL) :=
  ⟨by decide, by decide, rfl⟩

/-- C9 (amended): for input of at most 19 bytes from which fewer than three
integers can be parsed (including empty or entirely non-numeric text),
provided every parsed value (as `uint32_t`) is at most 32768, the channels
that were not parsed are stored as 0, the call succeeds returning the byte
count, and an RGB update is scheduled; a parsed value above 32768 is
instead rejected. -/
theorem c9_theorem (m : mdss_livedisplay_ctx) (buf : List Char)
    (hlen : buf.length ≤ 19)
    (hfew : (sscanf3 buf).length < 3)
    (hok : ∀ v ∈ sscanf3 buf, toU32 v ≤ 32768) :
    (mdss_livedisplay_set_rgb true m buf
      = Except.ok (⟨(applyParsed (sscanf3 buf)).1,
          (applyParsed (sscanf3 buf)).2.1, (applyParsed (sscanf3 buf)).2.2,
          m.updated ||| MODE_RGB, m.mfd_index⟩, buf.length, true))
    ∧ ((sscanf3 buf).length = 0 → (applyParsed (sscanf3 buf)).1 = 0)
    ∧ ((sscanf3 buf).length ≤ 1 → (applyParsed (sscanf3 buf)).2.1 = 0)
    ∧ ((sscanf3 buf).length ≤ 2 → (applyParsed (sscanf3 buf)).2.2 = 0) := by
  have hnl : ¬ buf.length > 19 := by omega
  rcases hp : sscanf3 buf with - | ⟨v1, - | ⟨v2, - | ⟨v3, rest⟩⟩⟩
  · simp [mdss_livedisplay_set_rgb, mdss_livedisplay_update, hnl, hp,
      applyParsed]
  · have h1 : ¬ toU32 v1 > 32768 := by
      have := hok v1 (by simp [hp])
      omega
    simp [mdss_livedisplay_set_rgb, mdss_livedisplay_update, hnl, hp,
      applyParsed, h1]
  · have h1 : ¬ toU32 v1 > 32768 := by
      have := hok v1 (by simp [hp])
      omega
    have h2 : ¬ toU32 v2 > 32768 := by
      have := hok v2 (by simp [hp])
      omega
    simp [mdss_livedisplay_set_rgb, mdss_livedisplay_update, hnl, hp,
      applyParsed, h1, h2]
  · rw [hp] at hfew
    simp at hfew
    omega

/-- C9 witness: the empty write (0 bytes) parses nothing, stores
(0, 0, 0), succeeds returning 0 and schedules an RGB update. -/
theorem c9_witness :
    (([] : List Char).length ≤ 19
      ∧ (sscanf3 []).length < 3
      ∧ ∀ v ∈ sscanf3 [], toU32 v ≤ 32768)
    ∧ ((mdss_livedisplay_set_rgb true ⟨25828, 17347, 8192, 4, 7⟩ []
        = Except.ok (⟨(applyParsed (sscanf3 [])).1,
            (applyParsed (sscanf3 [])).2.1, (applyParsed (sscanf3 [])).2.2,
            (4 : Nat) ||| MODE_RGB, 7⟩, ([] : List Char).length, true))
      ∧ ((sscanf3 []).length = 0 → (applyParsed (sscanf3 [])).1 = 0)
      ∧ ((sscanf3 []).length ≤ 1 → (applyParsed (sscanf3 [])).2.1 = 0)
      ∧ ((sscanf3 []).length ≤ 2 → (applyParsed (sscanf3 [])).2.2 = 0)) :=
  ⟨⟨by decide, by decide, by decide⟩,
    c9_theorem ⟨25828, 17347, 8192, 4, 7⟩ [] (by decide) (by decide)
      (by decide)⟩

/-- C8: in every context state reachable from initialization by any
sequence of `set_rgb` calls, update requests and worker runs, each of the
red, green and blue values lies in `[0, 32768]` (32768 being the
default). -/
theorem c8_theorem (m : mdss_livedisplay_ctx) (h : Reachable m) :
    m.r ≤ 32768 ∧ m.g ≤ 32768 ∧ m.b ≤ 32768 := by
  induction h with
  | init idx => exact ⟨by simp, by simp, by simp⟩
  | set_ok m m' buf n q hm hset ih =>
      exact set_rgb_ok_bounds m m' buf n q hset
  | upd m mask hm ih => exact ih
  | work m hw c p hm ih =>
      obtain ⟨h1, h2, h3⟩ := worker_fst_rgb hw c p m
      rw [h1, h2, h3]
      exact ih

/-- C8 witness: the freshly initialized context satisfies the range
invariant. -/
theorem c8_witness :
    (⟨32768, 32768, 32768, 0, 0⟩ : mdss_livedisplay_ctx).r ≤ 32768
    ∧ (⟨32768, 32768, 32768, 0, 0⟩ : mdss_livedisplay_ctx).g ≤ 32768
    ∧ (⟨32768, 32768, 32768, 0, 0⟩ : mdss_livedisplay_ctx).b ≤ 32768 :=
  c8_theorem ⟨32768, 32768, 32768, 0, 0⟩ (Reachable.init 0)

/-- C10: starting from any system state with an empty hardware log, a
nonempty sequence of valid `set_rgb` calls completing before the worker
runs programs nothing to hardware during the calls, leaves exactly one
coalesced run pending, and the single worker execution programs exactly
one command, whose diagonal coefficients are the last-written triple
(intermediate triples are never programmed); a further worker invocation
does nothing. -/
theorem c10_theorem (hw : mdp_pcc_cfg_data → Int) (s0 : LDSys)
    (ts : List (Nat × Nat × Nat)) (hne : ts ≠ [])
    (hv : ∀ t ∈ ts, t.1 ≤ 32768 ∧ t.2.1 ≤ 32768 ∧ t.2.2 ≤ 32768)
    (hl : s0.hw_log = []) :
    (runSets s0 ts).hw_log = []
    ∧ (runSets s0 ts).work_queued = true
    ∧ (∀ cfg ∈ (sysWorker hw (runSets s0 ts)).hw_log,
        cfg.r.r = (ts.getLast hne).1 ∧ cfg.g.g = (ts.getLast hne).2.1
          ∧ cfg.b.b = (ts.getLast hne).2.2)
    ∧ (sysWorker hw (runSets s0 ts)).hw_log.length = 1
    ∧ (sysWorker hw (runSets s0 ts)).mlc
        = ⟨(ts.getLast hne).1, (ts.getLast hne).2.1, (ts.getLast hne).2.2,
           0, s0.mlc.mfd_index⟩
    ∧ sysWorker hw (sysWorker hw (runSets s0 ts))
        = sysWorker hw (runSets s0 ts) := by
  rw [runSets_spec ts s0 hne hv, hl]
  refine ⟨rfl, rfl, ?_, ?_, ?_, ?_⟩ <;>
    simp [sysWorker, mdss_livedisplay_worker, mdss_livedisplay_update_pcc,
      or_rgb_pending]

/-- C10 witness: two rapid writes, `"1 2 3"` then `"25828 17347 8192"`,
from the default state: nothing reaches hardware until the single worker
run, which programs one command carrying the second (last) triple. -/
theorem c10_witness :
    (runSets ⟨⟨32768, 32768, 32768, 0, 0⟩, false, []⟩
        [(1, 2, 3), (25828, 17347, 8192)]).hw_log = []
    ∧ (runSets ⟨⟨32768, 32768, 32768, 0, 0⟩, false, []⟩
        [(1, 2, 3), (25828, 17347, 8192)]).work_queued = true
    ∧ (∀ cfg ∈ (sysWorker (fun _ => 0)
          (runSets ⟨⟨32768, 32768, 32768, 0, 0⟩, false, []⟩
            [(1, 2, 3), (25828, 17347, 8192)])).hw_log,
        cfg.r.r = (([(1, 2, 3), (25828, 17347, 8192)] :
            List (Nat × Nat × Nat)).getLast (by decide)).1
        ∧ cfg.g.g = (([(1, 2, 3), (25828, 17347, 8192)] :
            List (Nat × Nat × Nat)).getLast (by decide)).2.1
        ∧ cfg.b.b = (([(1, 2, 3), (25828, 17347, 8192)] :
            List (Nat × Nat × Nat)).getLast (by decide)).2.2)
    ∧ (sysWorker (fun _ => 0)
        (runSets ⟨⟨32768, 32768, 32768, 0, 0⟩, false, []⟩
          [(1, 2, 3), (25828, 17347, 8192)])).hw_log.length = 1
    ∧ (sysWorker (fun _ => 0)
        (runSets ⟨⟨32768, 32768, 32768, 0, 0⟩, false, []⟩
          [(1, 2, 3), (25828, 17347, 8192)])).mlc
        = ⟨(([(1, 2, 3), (25828, 17347, 8192)] :
              List (Nat × Nat × Nat)).getLast (by decide)).1,
           (([(1, 2, 3), (25828, 17347, 8192)] :
              List (Nat × Nat × Nat)).getLast (by decide)).2.1,
           (([(1, 2, 3), (25828, 17347, 8192)] :
              List (Nat × Nat × Nat)).getLast (by decide)).2.2, 0, 0⟩
    ∧ sysWorker (fun _ => 0) (sysWorker (fun _ => 0)
        (runSets ⟨⟨32768, 32768, 32768, 0, 0⟩, false, []⟩
          [(1, 2, 3), (25828, 17347, 8192)]))
        = sysWorker (fun _ => 0)
            (runSets ⟨⟨32768, 32768, 32768, 0, 0⟩, false, []⟩
              [(1, 2, 3), (25828, 17347, 8192)]) :=
  c10_theorem (fun _ => 0) ⟨⟨32768, 32768, 32768, 0, 0⟩, false, []⟩
    [(1, 2, 3), (25828, 17347, 8192)] (by decide) (by decide) rfl

end MdssLivedisplay
